import Mathlib

/-!
Verification development for the Bell Auto Sales admin mutation pipeline.

The definitions below are a shallow embedding of the JavaScript source:
  - `src/server.js` (vehicle mutation service, validation, image lifecycle),
  - `src/src/api/services/cloudinary.js` (admin client: CSRF retry, fetch
    sequencing),
  - `src/vehicle.js` (legacy admin client copy),
  - `src/script.js` (public read/normalize layer).

JavaScript dynamic values are modelled by the inductive type `JsVal`.
`JSON.parse` is an external library routine; functions that call it take the
parse result (or, where the string to parse varies, a parse oracle of type
`String → Option JsVal`, `none` meaning a parse error) as an explicit
argument.  Remote effects (Cloudinary uploads and deletions, database
statements, HTTP responses) are recorded as an explicit event trace `Ev`.
-/

/-- Dynamic JavaScript/JSON value, as manipulated by the image pipeline. -/
inductive JsVal where
  | null
  | bool (b : Bool)
  | num (n : Int)
  | str (s : String)
  | arr (xs : List JsVal)
  | obj (fields : List (String × JsVal))
deriving Repr

mutual

def jsValDecEq : (a b : JsVal) → Decidable (a = b)
  | .null, .null => isTrue rfl
  | .null, .bool _ => isFalse (fun h => JsVal.noConfusion h)
  | .null, .num _ => isFalse (fun h => JsVal.noConfusion h)
  | .null, .str _ => isFalse (fun h => JsVal.noConfusion h)
  | .null, .arr _ => isFalse (fun h => JsVal.noConfusion h)
  | .null, .obj _ => isFalse (fun h => JsVal.noConfusion h)
  | .bool _, .null => isFalse (fun h => JsVal.noConfusion h)
  | .bool a, .bool b =>
    if h : a = b then isTrue (h ▸ rfl) else isFalse (fun hh => h (JsVal.bool.inj hh))
  | .bool _, .num _ => isFalse (fun h => JsVal.noConfusion h)
  | .bool _, .str _ => isFalse (fun h => JsVal.noConfusion h)
  | .bool _, .arr _ => isFalse (fun h => JsVal.noConfusion h)
  | .bool _, .obj _ => isFalse (fun h => JsVal.noConfusion h)
  | .num _, .null => isFalse (fun h => JsVal.noConfusion h)
  | .num _, .bool _ => isFalse (fun h => JsVal.noConfusion h)
  | .num a, .num b =>
    if h : a = b then isTrue (h ▸ rfl) else isFalse (fun hh => h (JsVal.num.inj hh))
  | .num _, .str _ => isFalse (fun h => JsVal.noConfusion h)
  | .num _, .arr _ => isFalse (fun h => JsVal.noConfusion h)
  | .num _, .obj _ => isFalse (fun h => JsVal.noConfusion h)
  | .str _, .null => isFalse (fun h => JsVal.noConfusion h)
  | .str _, .bool _ => isFalse (fun h => JsVal.noConfusion h)
  | .str _, .num _ => isFalse (fun h => JsVal.noConfusion h)
  | .str a, .str b =>
    if h : a = b then isTrue (h ▸ rfl) else isFalse (fun hh => h (JsVal.str.inj hh))
  | .str _, .arr _ => isFalse (fun h => JsVal.noConfusion h)
  | .str _, .obj _ => isFalse (fun h => JsVal.noConfusion h)
  | .arr _, .null => isFalse (fun h => JsVal.noConfusion h)
  | .arr _, .bool _ => isFalse (fun h => JsVal.noConfusion h)
  | .arr _, .num _ => isFalse (fun h => JsVal.noConfusion h)
  | .arr _, .str _ => isFalse (fun h => JsVal.noConfusion h)
  | .arr xs, .arr ys =>
    match jsListDecEq xs ys with
    | isTrue h => isTrue (h ▸ rfl)
    | isFalse h => isFalse (fun hh => h (JsVal.arr.inj hh))
  | .arr _, .obj _ => isFalse (fun h => JsVal.noConfusion h)
  | .obj _, .null => isFalse (fun h => JsVal.noConfusion h)
  | .obj _, .bool _ => isFalse (fun h => JsVal.noConfusion h)
  | .obj _, .num _ => isFalse (fun h => JsVal.noConfusion h)
  | .obj _, .str _ => isFalse (fun h => JsVal.noConfusion h)
  | .obj _, .arr _ => isFalse (fun h => JsVal.noConfusion h)
  | .obj xs, .obj ys =>
    match jsFieldsDecEq xs ys with
    | isTrue h => isTrue (h ▸ rfl)
    | isFalse h => isFalse (fun hh => h (JsVal.obj.inj hh))

def jsListDecEq : (a b : List JsVal) → Decidable (a = b)
  | [], [] => isTrue rfl
  | [], _ :: _ => isFalse (fun h => List.noConfusion h)
  | _ :: _, [] => isFalse (fun h => List.noConfusion h)
  | x :: xs, y :: ys =>
    match jsValDecEq x y with
    | isTrue h1 =>
      match jsListDecEq xs ys with
      | isTrue h2 => isTrue (h1 ▸ h2 ▸ rfl)
      | isFalse h2 => isFalse (fun hh => h2 (List.cons.inj hh).2)
    | isFalse h1 => isFalse (fun hh => h1 (List.cons.inj hh).1)

def jsFieldsDecEq : (a b : List (String × JsVal)) → Decidable (a = b)
  | [], [] => isTrue rfl
  | [], _ :: _ => isFalse (fun h => List.noConfusion h)
  | _ :: _, [] => isFalse (fun h => List.noConfusion h)
  | (k, v) :: xs, (k', v') :: ys =>
    match (inferInstance : DecidableEq String) k k' with
    | isTrue hk =>
      match jsValDecEq v v' with
      | isTrue hv =>
        match jsFieldsDecEq xs ys with
        | isTrue ht => isTrue (by rw [hk, hv, ht])
        | isFalse ht => isFalse (fun hh => ht (List.cons.inj hh).2)
      | isFalse hv => isFalse (fun hh => hv (congrArg Prod.snd (List.cons.inj hh).1))
    | isFalse hk => isFalse (fun hh => hk (congrArg Prod.fst (List.cons.inj hh).1))

end

instance : DecidableEq JsVal := jsValDecEq

/-- JavaScript truthiness of a value (the `if (v)` test). -/
def truthy : JsVal → Bool
  | .null => false
  | .bool b => b
  | .num n => n != 0
  | .str s => s != ""
  | .arr _ => true
  | .obj _ => true

/-- Truthiness of a property access result (`undefined` is falsy). -/
def truthyOpt : Option JsVal → Bool
  | none => false
  | some v => truthy v

/-- Property access `v[k]`; `none` models `undefined`. -/
def getProp : JsVal → String → Option JsVal
  | .obj fields, k => (fields.find? (fun kv => kv.1 == k)).map (fun kv => kv.2)
  | _, _ => none

/-- Does `typeof v === "object"` hold (true for objects, arrays and null)? -/
def isObjType : JsVal → Bool
  | .null => true
  | .arr _ => true
  | .obj _ => true
  | _ => false

/-- The JavaScript expression `a || b` where `a` is a property access. -/
def jsOrDefault (a : Option JsVal) (b : JsVal) : JsVal :=
  match a with
  | some v => if truthy v then v else b
  | none => b

/-- Wrap an optional string, `none` becoming JavaScript `null`. -/
def jsOfOption : Option String → JsVal
  | none => .null
  | some s => .str s

/-!  String primitives.  All are structural recursions over `List Char` so
that concrete witnesses evaluate inside the kernel. -/

def jsTrimChars (cs : List Char) : List Char :=
  ((cs.dropWhile Char.isWhitespace).reverse.dropWhile Char.isWhitespace).reverse

/-- JavaScript `String.prototype.trim`. -/
def jsTrim (s : String) : String := ⟨jsTrimChars s.data⟩

/-- Does the character list start with the given pattern? -/
def charsStartsWith : List Char → List Char → Bool
  | _, [] => true
  | [], _ :: _ => false
  | c :: cs, d :: ds => c == d && charsStartsWith cs ds

/-- Substring containment, modelling `String.prototype.includes`. -/
def charsContainsSub : List Char → List Char → Bool
  | cs, pat =>
    match cs with
    | [] => pat.isEmpty
    | _ :: rest => charsStartsWith cs pat || charsContainsSub rest pat

/-- JavaScript `s.includes(pat)`. -/
def jsIncludes (s pat : String) : Bool := charsContainsSub s.data pat.data

mutual

/-- Scanner for the regex replace `str.replace(/<[^>]*>/g, "")`: text mode. -/
def stripTagsOut : List Char → List Char
  | [] => []
  | c :: rest => if c = '<' then stripTagsIn rest ['<'] else c :: stripTagsOut rest

/-- Tag mode: buffering from an opening angle bracket.  If no closing bracket
ever arrives the regex has no match starting there, so the buffered text is
emitted verbatim. -/
def stripTagsIn : List Char → List Char → List Char
  | [], buf => buf.reverse
  | c :: rest, buf => if c = '>' then stripTagsOut rest else stripTagsIn rest (c :: buf)

end

/-- The `sanitizeString` helper of server.js: strip HTML-like tags, then trim.
The source first returns non-strings unchanged; the embedding is applied only
where the input is a string (multipart/JSON text fields). -/
def sanitizeString (s : String) : String := jsTrim ⟨stripTagsOut s.data⟩

/-- Accumulating decimal digit parser; fails on any non-digit. -/
def digitsValGo : List Char → Nat → Option Nat
  | [], acc => some acc
  | c :: cs, acc =>
    if c.isDigit then digitsValGo cs (acc * 10 + (c.toNat - 48)) else none

/-- The JavaScript conversion `Number(s)` restricted to integer results, as
consumed by `z.number().int()`.  Modelled subset: surrounding whitespace is
ignored, the empty/whitespace-only string converts to 0, and an optional sign
followed by decimal digits converts to that integer.  Every other string is
treated as a conversion the schema rejects (NaN or a non-integer); exotic
numeric notations (hex, exponent) are outside the model and no claim or
witness relies on them. -/
def jsNumberInt (s : String) : Option Int :=
  match jsTrimChars s.data with
  | [] => some 0
  | '-' :: ds =>
    if ds.isEmpty then none else (digitsValGo ds 0).map (fun n => -(n : Int))
  | '+' :: ds =>
    if ds.isEmpty then none else (digitsValGo ds 0).map (fun n => (n : Int))
  | ds => (digitsValGo ds 0).map (fun n => (n : Int))

/-! Cloudinary public-id extraction (`extractPublicIdFromUrl` in server.js).
The regex is `/\/upload\/(?:v\d+\/)?(.+?)\.[^.]+$/`: after an occurrence of
the literal `/upload/`, optionally skip a version segment `v<digits>/`, then
lazily capture at least one character up to a final dot-free extension.  The
lazy capture anchored at the end of the string makes the capture run exactly
to the last dot. -/

/-- Match `cap ++ "." ++ ext` against the tail of the pattern, where `cap` is
nonempty and `ext` is the nonempty, dot-free final extension. -/
def matchCaptureExt (t : List Char) : Option (List Char) :=
  let ext := (t.reverse.takeWhile (fun c => c != '.')).reverse
  if ext.length = t.length then none
  else
    let cap := t.take (t.length - ext.length - 1)
    if cap.isEmpty || ext.isEmpty then none else some cap

/-- Try to consume the optional `v<digits>/` version segment. -/
def stripVersionSeg : List Char → Option (List Char)
  | 'v' :: rest =>
    let ds := rest.takeWhile Char.isDigit
    if ds.isEmpty then none
    else
      match rest.drop ds.length with
      | '/' :: tail => some tail
      | _ => none
  | _ => none

/-- Match the pattern tail at one position after `/upload/`: first with the
version segment consumed, then (regex backtracking) without it. -/
def matchAfterUpload (t : List Char) : Option (List Char) :=
  match stripVersionSeg t with
  | some t' =>
    match matchCaptureExt t' with
    | some cap => some cap
    | none => matchCaptureExt t
  | none => matchCaptureExt t

/-- All suffixes of the text following each occurrence of the pattern, in
left-to-right order (the regex engine tries each start position in order). -/
def suffixesAfter (pat : List Char) : List Char → List (List Char)
  | [] => []
  | c :: rest =>
    if charsStartsWith (c :: rest) pat then
      ((c :: rest).drop pat.length) :: suffixesAfter pat rest
    else
      suffixesAfter pat rest

/-- First successful match among the candidate positions. -/
def findUploadMatch : List (List Char) → Option (List Char)
  | [] => none
  | t :: ts =>
    match matchAfterUpload t with
    | some cap => some cap
    | none => findUploadMatch ts

/-- The `extractPublicIdFromUrl` helper of server.js, on string urls: `null`
unless the url mentions cloudinary.com and the upload-path regex matches. -/
def extractPublicIdFromUrl (url : String) : Option String :=
  if jsIncludes url "cloudinary.com" then
    (findUploadMatch (suffixesAfter "/upload/".data url.data)).map (fun cs => ⟨cs⟩)
  else none

/-- Dynamic-value wrapper for `extractPublicIdFromUrl(img?.url)`.  The outer
`none` models the TypeError raised by `url.includes` when the url is a truthy
non-string (that check sits outside the try/catch in the source); `some v`
is the returned value, `JsVal.null` or the public-id string. -/
def extractPublicIdDyn : JsVal → Option JsVal
  | .str s => some (jsOfOption (extractPublicIdFromUrl s))
  | v => if truthy v then none else some .null

/-! Image references and the stored-image helpers of server.js. -/

/-- One element of a vehicle images array: the object `{url, publicId}`.
Both fields hold dynamic values, as the source never restricts their types
when reading stored rows (`publicId` is `JsVal.null` when absent). -/
structure ImageRef where
  url : JsVal
  publicId : JsVal
deriving Repr, DecidableEq

/-- JSON object produced for one image by `JSON.stringify` (insertion order
url, publicId). -/
def imageRefToJson (r : ImageRef) : JsVal := .obj [("url", r.url), ("publicId", r.publicId)]

/-- Composite of `JSON.stringify` on an images array followed by `JSON.parse`
on the stored column: the identity embedding of the list into `JsVal`. -/
def imagesToJson (l : List ImageRef) : JsVal := .arr (l.map imageRefToJson)

/-- Per-item branch of `normalizeImagesFromDb`. -/
def normalizeDbItem (item : JsVal) : Option ImageRef :=
  if truthy item && isObjType item && truthyOpt (getProp item "url") then
    some { url := (getProp item "url").getD .null,
           publicId := jsOrDefault (getProp item "publicId") .null }
  else
    match item with
    | .str s => some { url := .str s, publicId := jsOfOption (extractPublicIdFromUrl s) }
    | _ => none

/-- The `normalizeImagesFromDb` helper of server.js.  Its argument is the
result of `JSON.parse(imagesJson || "[]")`: `none` models a parse error
(caught, yielding `[]`); a non-array parse also yields `[]`. -/
def normalizeImagesFromDb (parsed : Option JsVal) : List ImageRef :=
  match parsed with
  | some (.arr xs) => xs.filterMap normalizeDbItem
  | _ => []

/-- One element of the `body.image_url` JSON array in `buildImagesArray`:
trimmed nonempty strings become handle-less references, objects with a truthy
url keep their url and any truthy publicId. -/
def buildUrlItem (item : JsVal) : Option ImageRef :=
  match item with
  | .str s => if jsTrim s != "" then some { url := .str (jsTrim s), publicId := .null } else none
  | _ =>
    if truthy item && truthyOpt (getProp item "url") then
      some { url := (getProp item "url").getD .null,
             publicId := jsOrDefault (getProp item "publicId") .null }
    else none

/-- The `body.image_url` branch of `buildImagesArray`, given the `JSON.parse`
result of the field (`none` = parse error, handled by treating the raw field
as a single url). -/
def buildImageUrlItems (parsedUrl : Option JsVal) (raw : String) : List ImageRef :=
  match parsedUrl with
  | some (.arr xs) => xs.filterMap buildUrlItem
  | some (.str s) => if jsTrim s != "" then [{ url := .str (jsTrim s), publicId := .null }] else []
  | some _ => []
  | none => if jsTrim raw != "" then [{ url := .str (jsTrim raw), publicId := .null }] else []

/-- The `buildImagesArray` helper of server.js.  `parseJson` is the
`JSON.parse` oracle applied to the raw `image_url` field; `imageUrl` is that
field (absent or empty means the branch is skipped, as `if (body.image_url)`
is falsy). -/
def buildImagesArray (parseJson : String → Option JsVal) (cloudinaryResults : List ImageRef)
    (imageUrl : Option String) (existingImages : List ImageRef) : List ImageRef :=
  let fromUrl : List ImageRef :=
    match imageUrl with
    | some s => if s != "" then buildImageUrlItems (parseJson s) s else []
    | none => []
  let images := cloudinaryResults ++ fromUrl
  if images.isEmpty && !existingImages.isEmpty then existingImages else images

/-- A map that can raise: `none` propagates a thrown exception. -/
def jsMapThrow (f : α → Option β) : List α → Option (List β)
  | [] => some []
  | x :: xs =>
    match f x with
    | none => none
    | some y =>
      match jsMapThrow f xs with
      | none => none
      | some ys => some (y :: ys)

/-- One element of the `getPublicIdsFromImages` map:
`img?.publicId || extractPublicIdFromUrl(img?.url)`. -/
def imagePidValue (img : ImageRef) : Option JsVal :=
  if truthy img.publicId then some img.publicId else extractPublicIdDyn img.url

/-- The `getPublicIdsFromImages` helper of server.js: map each image to its
public id (falling back to re-deriving it from the url), keep truthy results.
`none` models the uncaught TypeError for a truthy non-string url. -/
def getPublicIdsFromImages (images : List ImageRef) : Option (List JsVal) :=
  (jsMapThrow imagePidValue images).map (fun l => l.filter truthy)

/-! Vehicle field validation (server.js: `ALLOWED_VEHICLE_FIELDS`,
`vehicleSchema`, `validateVehicleFields`).  A multipart/JSON body is modelled
as an association list of string fields; `lookupField` is property access. -/

def lookupField (body : List (String × String)) (k : String) : Option String :=
  (body.find? (fun kv => kv.1 == k)).map (fun kv => kv.2)

def ALLOWED_VEHICLE_FIELDS : List String :=
  ["year", "make", "model", "trim", "price", "mileage",
   "exterior_color", "interior_color", "fuel_type",
   "transmission", "engine", "drivetrain", "description",
   "status", "image_url"]

/-- The filtering loop at the top of `validateVehicleFields`: copy only the
allow-listed keys that are present in the body. -/
def filterAllowed (body : List (String × String)) : List (String × String) :=
  ALLOWED_VEHICLE_FIELDS.filterMap (fun k => (lookupField body k).map (fun v => (k, v)))

/-- Schema branch for a numeric field: preprocess maps absent/empty to null,
otherwise converts with `Number`; then `z.number().int().min(lo).max(hi)`. -/
def validateNumField (lo hi : Int) (v : Option String) : Except String (Option Int) :=
  match v with
  | none => .ok none
  | some s =>
    if s = "" then .ok none
    else
      match jsNumberInt s with
      | none => .error "not an integer"
      | some n => if lo ≤ n && n ≤ hi then .ok (some n) else .error "out of range"

/-- Schema branch for a sanitized, length-capped, defaulted string field. -/
def validateStrField (maxLen : Nat) (v : Option String) : Except String String :=
  match v with
  | none => .ok ""
  | some s =>
    let t := sanitizeString s
    if t.length ≤ maxLen then .ok t else .error "too long"

/-- Schema branch for `status`: sanitized enum with default "available". -/
def validateStatus (v : Option String) : Except String String :=
  match v with
  | none => .ok "available"
  | some s =>
    let t := sanitizeString s
    if t = "available" || t = "sold" || t = "pending" then .ok t else .error "invalid enum value"

/-- Schema branch for `image_url`: plain optional string, max length 2000. -/
def validateImageUrlField (v : Option String) : Except String String :=
  match v with
  | none => .ok ""
  | some s => if s.length ≤ 2000 then .ok s else .error "too long"

/-- Parsed and validated vehicle fields (the `result.data` of the schema). -/
structure VehicleData where
  year : Option Int
  make : String
  model : String
  trimName : String
  price : Option Int
  mileage : Option Int
  exterior_color : String
  interior_color : String
  fuel_type : String
  transmission : String
  engine : String
  drivetrain : String
  description : String
  status : String
  image_url : String
deriving Repr, DecidableEq

def exceptFieldErr (field : String) : Except String α → List String
  | .ok _ => []
  | .error _ => [field]

def exceptGetD (d : α) : Except String α → α
  | .ok a => a
  | .error _ => d

/-- The `validateVehicleFields` helper of server.js: restrict the body to the
allow-list, then run the zod schema, collecting per-field errors.  The
`.strict()` unknown-key check of the schema never fires because the filtering
step has already removed every key outside the allow-list.  `currentYear`
models `new Date().getFullYear()`. -/
def validateVehicleFields (currentYear : Int) (body : List (String × String)) :
    Except (List String) VehicleData :=
  let m := filterAllowed body
  let year := validateNumField 1900 (currentYear + 2) (lookupField m "year")
  let make := validateStrField 50 (lookupField m "make")
  let model := validateStrField 50 (lookupField m "model")
  let trimV := validateStrField 50 (lookupField m "trim")
  let price := validateNumField 0 10000000 (lookupField m "price")
  let mileage := validateNumField 0 1000000 (lookupField m "mileage")
  let extC := validateStrField 50 (lookupField m "exterior_color")
  let intC := validateStrField 50 (lookupField m "interior_color")
  let fuel := validateStrField 30 (lookupField m "fuel_type")
  let trans := validateStrField 30 (lookupField m "transmission")
  let engine := validateStrField 50 (lookupField m "engine")
  let drive := validateStrField 30 (lookupField m "drivetrain")
  let descr := validateStrField 5000 (lookupField m "description")
  let status := validateStatus (lookupField m "status")
  let imgUrl := validateImageUrlField (lookupField m "image_url")
  let errs :=
    exceptFieldErr "year" year ++ exceptFieldErr "make" make ++
    exceptFieldErr "model" model ++ exceptFieldErr "trim" trimV ++
    exceptFieldErr "price" price ++ exceptFieldErr "mileage" mileage ++
    exceptFieldErr "exterior_color" extC ++ exceptFieldErr "interior_color" intC ++
    exceptFieldErr "fuel_type" fuel ++ exceptFieldErr "transmission" trans ++
    exceptFieldErr "engine" engine ++ exceptFieldErr "drivetrain" drive ++
    exceptFieldErr "description" descr ++ exceptFieldErr "status" status ++
    exceptFieldErr "image_url" imgUrl
  if errs.isEmpty then
    .ok { year := exceptGetD none year, make := exceptGetD "" make,
          model := exceptGetD "" model, trimName := exceptGetD "" trimV,
          price := exceptGetD none price, mileage := exceptGetD none mileage,
          exterior_color := exceptGetD "" extC, interior_color := exceptGetD "" intC,
          fuel_type := exceptGetD "" fuel, transmission := exceptGetD "" trans,
          engine := exceptGetD "" engine, drivetrain := exceptGetD "" drive,
          description := exceptGetD "" descr, status := exceptGetD "available" status,
          image_url := exceptGetD "" imgUrl }
  else .error errs

/-! Contact form validation (server.js: `contactSchema`,
`validateContactForm`). -/

def CONTACT_FIELDS : List String :=
  ["name", "phone", "message", "vehicleId", "vehicleTitle", "website"]

/-- Allowed characters of the phone regex `^[\d\s()\-+.]+$`. -/
def phoneChar (c : Char) : Bool :=
  c.isDigit || c.isWhitespace || c == '(' || c == ')' || c == '-' || c == '+' || c == '.'

def validateContactName (v : Option String) : Except String String :=
  match v with
  | none => .error "required"
  | some s =>
    let t := sanitizeString s
    if t = "" then .error "Name is required"
    else if t.length ≤ 100 then .ok t else .error "Name too long"

def validateContactPhone (v : Option String) : Except String String :=
  match v with
  | none => .error "required"
  | some s =>
    let t := sanitizeString s
    if t = "" then .error "Phone is required"
    else if t.length > 30 then .error "Phone number too long"
    else if t.data.all phoneChar then .ok t else .error "Invalid phone format"

def validateContactMessage (v : Option String) : Except String String :=
  match v with
  | none => .error "required"
  | some s =>
    let t := sanitizeString s
    if t = "" then .error "Message is required"
    else if t.length ≤ 2000 then .ok t else .error "Message too long"

def validateVehicleIdField (v : Option String) : Except String (Option Int) :=
  match v with
  | none => .ok none
  | some s =>
    if s = "" then .ok none
    else
      match jsNumberInt s with
      | none => .error "not an integer"
      | some n => if 0 < n then .ok (some n) else .error "not positive"

def validateVehicleTitle (v : Option String) : Except String String :=
  match v with
  | none => .ok ""
  | some s =>
    let t := sanitizeString s
    if t.length ≤ 200 then .ok t else .error "too long"

/-- Honeypot field: preprocess maps absent to the empty string; `max(0)`
rejects any nonempty value with the message "spam_detected". -/
def validateWebsite (v : Option String) : Except String Unit :=
  match v with
  | none => .ok ()
  | some s => if s = "" then .ok () else .error "spam_detected"

/-- Keys of the body outside the contact schema: `.strict()` rejects each. -/
def contactUnknownKeys (body : List (String × String)) : List String :=
  (body.filter (fun kv => !(CONTACT_FIELDS.contains kv.1))).map (fun kv => kv.1)

/-- Result of `validateContactForm`: spam beats every other outcome, then
collected field errors, then the parsed data. -/
inductive ContactValidation where
  | spam
  | invalid (fields : List String)
  | valid (name phone message : String) (vehicleId : Option Int) (vehicleTitle : String)
deriving Repr, DecidableEq

/-- The `validateContactForm` helper of server.js: run the strict schema,
then classify a failure as spam exactly when some error message is
"spam_detected" (only the honeypot branch produces that message). -/
def validateContactForm (body : List (String × String)) : ContactValidation :=
  let name := validateContactName (lookupField body "name")
  let phone := validateContactPhone (lookupField body "phone")
  let message := validateContactMessage (lookupField body "message")
  let vid := validateVehicleIdField (lookupField body "vehicleId")
  let vtitle := validateVehicleTitle (lookupField body "vehicleTitle")
  let website := validateWebsite (lookupField body "website")
  let errs :=
    exceptFieldErr "name" name ++ exceptFieldErr "phone" phone ++
    exceptFieldErr "message" message ++ exceptFieldErr "vehicleId" vid ++
    exceptFieldErr "vehicleTitle" vtitle ++ exceptFieldErr "website" website ++
    contactUnknownKeys body
  match website with
  | .error _ => .spam
  | .ok _ =>
    if errs.isEmpty then
      .valid (exceptGetD "" name) (exceptGetD "" phone) (exceptGetD "" message)
        (exceptGetD none vid) (exceptGetD "" vtitle)
    else .invalid errs

/-- The `POST /api/contact` handler, after the origin check and rate limiter:
returns the HTTP status and the number of rows inserted into the leads table.
`dbOk` is the outcome of the INSERT statement. -/
def contactHandler (body : List (String × String)) (dbOk : Bool) : Nat × Nat :=
  match validateContactForm body with
  | .spam => (200, 0)
  | .invalid _ => (400, 0)
  | .valid _ _ _ _ _ => if dbOk then (200, 1) else (500, 0)

/-! Server mutation handlers as event traces. -/

/-- Outcome of one Cloudinary upload attempt for one file, as decided by the
remote service: success with the returned secure url and public id, or a
provider error. -/
inductive FileOutcome where
  | ok (url publicId : String)
  | fail
deriving Repr, DecidableEq

def FileOutcome.isOk : FileOutcome → Bool
  | .ok _ _ => true
  | .fail => false

/-- Public id recorded for a successful upload. -/
def okPids (files : List FileOutcome) : List String :=
  files.filterMap (fun f => match f with | .ok _ p => some p | .fail => none)

/-- Observable effect of the mutation pipeline, in program order.  A
`remoteDelete` is the invocation of `cloudinary.uploader.destroy` for one
handle (the adapter treats the provider outcome as best-effort). -/
inductive Ev where
  | uploadOk (publicId : String)
  | uploadFail
  | remoteDelete (publicId : JsVal)
  | dbInsert (images : List ImageRef)
  | dbWrite (images : List ImageRef)
  | dbDelete
  | respond (status : Nat)
deriving Repr, DecidableEq

def Ev.isRespond : Ev → Bool
  | .respond _ => true
  | _ => false

def Ev.isRemoteDelete : Ev → Bool
  | .remoteDelete _ => true
  | _ => false

def Ev.isDbWrite : Ev → Bool
  | .dbWrite _ => true
  | _ => false

/-- Loop body of `uploadFilesToCloudinary`: upload in order, accumulating
`{url, publicId}` results; on the first failure, delete every earlier
successful upload (the truthy public ids of the accumulator) and propagate
the failure. -/
def uploadLoop : List FileOutcome → List ImageRef → List Ev × Option (List ImageRef)
  | [], acc => ([], some acc)
  | .ok u p :: rest, acc =>
    let r := uploadLoop rest (acc ++ [{ url := .str u, publicId := .str p }])
    (.uploadOk p :: r.1, r.2)
  | .fail :: _, acc =>
    let pids := (acc.map (fun i => i.publicId)).filter truthy
    (.uploadFail :: pids.map (fun p => .remoteDelete p), none)

/-- The `uploadFilesToCloudinary` helper of server.js.  `none` in the second
component models the rethrown upload error, surfaced only after the awaited
cleanup deletions recorded in the trace. -/
def uploadFilesToCloudinary (files : List FileOutcome) : List Ev × Option (List ImageRef) :=
  uploadLoop files []

/-- The `POST /api/vehicles` handler (after auth, rate limit and CSRF):
validate, upload files, build the images array, then insert exactly one row.
`dbOk` is the INSERT outcome; descriptive columns are not tracked because no
claim depends on them, only the stored images array is carried. -/
def createVehicle (parseJson : String → Option JsVal) (currentYear : Int)
    (body : List (String × String)) (files : List FileOutcome) (dbOk : Bool) : List Ev :=
  match validateVehicleFields currentYear body with
  | .error _ => [.respond 400]
  | .ok _ =>
    match uploadFilesToCloudinary files with
    | (evs, none) => evs ++ [.respond 500]
    | (evs, some results) =>
      let images := buildImagesArray parseJson results (lookupField body "image_url") []
      if dbOk then evs ++ [.dbInsert images, .respond 201]
      else evs ++ [.respond 500]

/-- The `PUT /api/vehicles/:id` handler on an existing row (after auth, rate
limit and CSRF): validate, read and normalize the stored images
(`parsedExisting` is the `JSON.parse` of the stored column), upload new
files, build the replacement images array, diff the deletion handles, write
the row, and only then start the remote cleanup of replaced handles.  A
TypeError escaping the public-id computations is caught by the surrounding
try/catch and returned as a 500 with no write. -/
def updateVehicle (parseJson : String → Option JsVal) (currentYear : Int)
    (body : List (String × String)) (parsedExisting : Option JsVal)
    (files : List FileOutcome) (dbOk : Bool) : List Ev :=
  match validateVehicleFields currentYear body with
  | .error _ => [.respond 400]
  | .ok _ =>
    let existingImages := normalizeImagesFromDb parsedExisting
    match uploadFilesToCloudinary files with
    | (evs, none) => evs ++ [.respond 500]
    | (evs, some results) =>
      let images := buildImagesArray parseJson results (lookupField body "image_url") existingImages
      match getPublicIdsFromImages existingImages, getPublicIdsFromImages images with
      | some oldPids, some newPids =>
        let toDelete := oldPids.filter (fun p => !(newPids.contains p))
        if dbOk then
          evs ++ [.dbWrite images] ++ toDelete.map (fun p => .remoteDelete p) ++ [.respond 200]
        else evs ++ [.respond 500]
      | _, _ => evs ++ [.respond 500]

/-- The `DELETE /api/vehicles/:id` handler on an existing row: delete the row
first, then derive the stored deletion handles and start the non-blocking
remote cleanup; a TypeError inside the cleanup block is caught and only
skips the cleanup. -/
def deleteVehicle (parsedImagesJson : Option JsVal) (dbOk : Bool) : List Ev :=
  if !dbOk then [.respond 500]
  else
    let cleanup :=
      match getPublicIdsFromImages (normalizeImagesFromDb parsedImagesJson) with
      | none => []
      | some pids => pids.map (fun p => Ev.remoteDelete p)
    .dbDelete :: cleanup ++ [.respond 200]

/-! Admin client models (src/src/api/services/cloudinary.js). -/

/-- `res.ok` of the fetch API: status in [200, 300). -/
def respOk (status : Nat) : Bool := 200 ≤ status && status < 300

/-- Visible outcome of one admin save action. -/
inductive SubmitOutcome where
  | success
  | loggedOut
  | errorAlert
deriving Repr, DecidableEq

/-- The response handling of `handleAddCarFormSubmit` (create/update): given
the status of the first request and the status the retried request would
receive, return the number of mutation requests issued, whether a silent
CSRF token refresh-and-retry was performed, and the visible outcome.  A 401
logs the admin out; a 403 refreshes the token and retries exactly once,
surfacing an error if the retry is not ok; any other failure surfaces
directly. -/
def submitMutation (first second : Nat) : Nat × Bool × SubmitOutcome :=
  if first = 401 then (1, false, .loggedOut)
  else if first = 403 then
    if respOk second then (2, true, .success) else (2, true, .errorAlert)
  else if respOk first then (1, false, .success)
  else (1, false, .errorAlert)

/-- The response handling of `deleteCar`, which goes through `requestJson`:
that helper attaches no CSRF header and performs no retry, it throws on any
non-ok status and `deleteCar` surfaces the error. -/
def deleteMutation (first : Nat) : Nat × Bool × SubmitOutcome :=
  if respOk first then (1, false, .success) else (1, false, .errorAlert)

/-- State of the admin inventory read layer: the last issued fetch sequence
number and the rendered inventory (`none` until something rendered). -/
structure FetchState where
  seq : Nat
  rendered : Option (List Nat)
deriving Repr, DecidableEq

/-- Issuing a fetch in `fetchCarsAndRender` of the admin client
(cloudinary.js): increment the sequence counter and tag the fetch with it. -/
def issueFetch (st : FetchState) : FetchState × Nat :=
  ({ st with seq := st.seq + 1 }, st.seq + 1)

/-- Resolution of a tagged fetch in the admin client: the response is applied
only if its tag is still the latest issued sequence number. -/
def resolveFetchGuarded (st : FetchState) (tag : Nat) (data : List Nat) : FetchState :=
  if tag = st.seq then { st with rendered := some data } else st

/-- Resolution of a fetch in the legacy `fetchCarsAndRender` of vehicle.js:
no sequence check, every response overwrites the rendered state. -/
def resolveFetchLegacy (st : FetchState) (data : List Nat) : FetchState :=
  { st with rendered := some data }

/-! Admin login comparison (server.js `POST /api/admin/login`). -/

/-- The `crypto.timingSafeEqual` accumulator on two equal-length byte
strings: OR together the XOR of every byte pair, with no early exit. -/
def timingSafeEqualAcc (a b : List Nat) : Nat :=
  (a.zip b).foldl (fun acc p => acc ||| (p.1 ^^^ p.2)) 0

/-- Number of byte comparisons the accumulator performs. -/
def timingSafeEqualCost (a b : List Nat) : Nat := (a.zip b).length

/-- The password check of the login handler: compare lengths first, and only
when they agree run the constant-time byte comparison.  Returns the verdict
and the number of byte comparisons performed (the data-dependent part of the
running time). -/
def loginCompare (pw admin : List Nat) : Bool × Nat :=
  if pw.length = admin.length then
    (timingSafeEqualAcc pw admin == 0, timingSafeEqualCost pw admin)
  else (false, 0)

/-! Public read/normalize layer (script.js). -/

/-- Per-item extractor of `normalizeImageArray`: strings pass through
trimmed when nonempty; otherwise objects and arrays yield
`val.url || val.secure_url || ""` verbatim; everything else yields the empty
string. -/
def imageItemToUrl (v : JsVal) : JsVal :=
  match v with
  | .str s => if jsTrim s != "" then .str (jsTrim s) else .str ""
  | v =>
    if truthy v && isObjType v then
      jsOrDefault (getProp v "url") (jsOrDefault (getProp v "secure_url") (.str ""))
    else .str ""

/-- Candidate-list resolution of `normalizeImageArray`: arrays pass through,
strings go through `JSON.parse` (`parseJson` is the parse oracle, `none`
modelling a parse error, in which case the trimmed original string becomes
the single candidate), single objects are wrapped, everything else is
empty. -/
def normCandidates (parseJson : String → Option JsVal) (input : JsVal) : List JsVal :=
  match input with
  | .arr xs => xs
  | .str s =>
    match parseJson s with
    | some (.arr xs) => xs
    | some (.obj f) => [.obj f]
    | some (.str t) => [.str t]
    | some _ => []
    | none => if jsTrim s != "" then [.str (jsTrim s)] else []
  | .obj f => [.obj f]
  | _ => []

/-- The `normalizeImageArray` function of script.js: resolve the candidate
list, extract a url from each item, drop falsy results. -/
def normalizeImageArray (parseJson : String → Option JsVal) (input : JsVal) : List JsVal :=
  ((normCandidates parseJson input).map imageItemToUrl).filter truthy


/-! Theorems.  Each claim of the specification is settled below; helper
lemmas are shared, claim theorems are referenced only by their witnesses. -/

theorem nat_or_eq_zero_iff (a b : Nat) : a ||| b = 0 ↔ a = 0 ∧ b = 0 := by
  constructor
  · intro h
    have ha : a = 0 := by
      apply Nat.eq_of_testBit_eq
      intro i
      have := congrArg (fun n => Nat.testBit n i) h
      simp [Nat.testBit_or] at this
      simp [this.1]
    have hb : b = 0 := by
      apply Nat.eq_of_testBit_eq
      intro i
      have := congrArg (fun n => Nat.testBit n i) h
      simp [Nat.testBit_or] at this
      simp [this.2]
    exact ⟨ha, hb⟩
  · rintro ⟨h1, h2⟩; simp [h1, h2]

theorem foldl_lor_eq_zero (l : List Nat) (init : Nat) :
    l.foldl (fun acc x => acc ||| x) init = 0 ↔ init = 0 ∧ ∀ x ∈ l, x = 0 := by
  induction l generalizing init with
  | nil => simp
  | cons x xs ih =>
    simp only [List.foldl_cons, ih, List.mem_cons, nat_or_eq_zero_iff]
    constructor
    · rintro ⟨⟨h0, hx⟩, hall⟩
      exact ⟨h0, fun y hy => hy.elim (fun e => e ▸ hx) (hall y)⟩
    · rintro ⟨h0, hall⟩
      exact ⟨⟨h0, hall x (Or.inl rfl)⟩, fun y hy => hall y (Or.inr hy)⟩

theorem zip_all_eq_iff (a b : List Nat) (h : a.length = b.length) :
    (∀ p ∈ a.zip b, p.1 = p.2) ↔ a = b := by
  induction a generalizing b with
  | nil =>
    cases b with
    | nil => simp
    | cons y ys => simp at h
  | cons x xs ih =>
    cases b with
    | nil => simp at h
    | cons y ys =>
      simp only [List.zip_cons_cons, List.mem_cons, List.cons.injEq]
      simp only [List.length_cons, Nat.succ.injEq] at h
      constructor
      · intro hall
        refine ⟨hall (x, y) (Or.inl rfl), (ih ys h).mp ?_⟩
        intro p hp; exact hall p (Or.inr hp)
      · rintro ⟨hxy, hrest⟩ p hp
        rcases hp with he | hm
        · rw [he]; exact hxy
        · exact ((ih ys h).mpr hrest) p hm

theorem timingSafeEqualAcc_eq_zero (a b : List Nat) (h : a.length = b.length) :
    timingSafeEqualAcc a b = 0 ↔ a = b := by
  unfold timingSafeEqualAcc
  have hmap : (a.zip b).foldl (fun acc p => acc ||| (p.1 ^^^ p.2)) 0
      = ((a.zip b).map (fun p => p.1 ^^^ p.2)).foldl (fun acc x => acc ||| x) 0 := by
    rw [List.foldl_map]
  rw [hmap, foldl_lor_eq_zero]
  simp only [List.mem_map, true_and]
  rw [← zip_all_eq_iff a b h]
  constructor
  · intro hall p hp
    exact Nat.xor_eq_zero.mp (hall (p.1 ^^^ p.2) ⟨p, hp, rfl⟩)
  · rintro hall x ⟨p, hp, he⟩
    rw [← he]; exact Nat.xor_eq_zero.mpr (hall p hp)

/-- Claim C9: the login comparison accepts exactly the configured password,
and the number of byte comparisons it performs depends only on the lengths
(zero when the lengths differ, the full password length when they agree), so
rejection time does not reveal the position of the first mismatching byte. -/
theorem loginCompare_correct_and_constant_time (pw admin : List Nat) :
    ((loginCompare pw admin).1 = true ↔ pw = admin) ∧
    (loginCompare pw admin).2 = (if pw.length = admin.length then admin.length else 0) := by
  unfold loginCompare
  by_cases h : pw.length = admin.length
  · rw [if_pos h, if_pos h]
    constructor
    · simp only [beq_iff_eq]
      exact timingSafeEqualAcc_eq_zero pw admin h
    · simp [timingSafeEqualCost, List.length_zip, h]
  · rw [if_neg h, if_neg h]
    refine ⟨⟨fun hh => absurd hh (by simp), fun hh => absurd (congrArg List.length hh) h⟩, rfl⟩

/-- Claim C6 counterexample: a vehicle delete is an admin mutation, and when
its request is rejected with 403 (requestJson in the admin client attaches no
CSRF token and has no retry logic) the client performs zero
token-refresh-and-retries and surfaces the error after a single attempt,
contradicting the claimed exactly-one silent refresh-and-retry. -/
theorem deleteMutation_never_retries : deleteMutation 403 = (1, false, .errorAlert) := by
  decide

/-- Claim C6 (amended): create/update submissions (handleAddCarFormSubmit)
perform a silent token-refresh-and-retry exactly when the first response is
403 (and then exactly one), surface the error when the retried request is
also not ok, and never issue more than two attempts; delete mutations
perform no retry and no refresh, surfacing the first rejection after a
single attempt. -/
theorem admin_mutation_retry_discipline (first second : Nat) :
    (submitMutation first second).1 ≤ 2 ∧
    ((submitMutation first second).2.1 = true ↔ first = 403) ∧
    (first = 403 → respOk second = false →
      submitMutation first second = (2, true, .errorAlert)) ∧
    (deleteMutation first).1 = 1 ∧ (deleteMutation first).2.1 = false := by
  have hdel1 : (deleteMutation first).1 = 1 := by
    unfold deleteMutation
    by_cases h : respOk first = true <;> simp [h]
  have hdel2 : (deleteMutation first).2.1 = false := by
    unfold deleteMutation
    by_cases h : respOk first = true <;> simp [h]
  refine ⟨?_, ?_, ?_, hdel1, hdel2⟩
  · unfold submitMutation
    split_ifs <;> simp
  · unfold submitMutation
    split_ifs with h1 h3 h2 hok <;> simp_all
  · intro ha hb
    subst ha
    unfold submitMutation
    rw [if_neg (by omega), if_pos rfl, if_neg (by simp [hb])]

/-- Claim C6 witness: a 403 followed by a non-ok retry ends after exactly
two attempts with the error surfaced. -/
theorem admin_mutation_retry_witness : submitMutation 403 500 = (2, true, .errorAlert) :=
  (admin_mutation_retry_discipline 403 500).2.2.1 rfl (by decide)

/-- Claim C7: a contact submission whose honeypot field (website) is
nonempty is answered with HTTP 200 and inserts zero rows into the leads
table, for every body and either database outcome. -/
theorem contact_honeypot_accepted_and_discarded
    (body : List (String × String)) (dbOk : Bool) (w : String)
    (hw : lookupField body "website" = some w) (hne : w ≠ "") :
    contactHandler body dbOk = (200, 0) := by
  have hspam : validateContactForm body = .spam := by
    unfold validateContactForm validateWebsite
    rw [hw]
    simp [hne]
  unfold contactHandler
  rw [hspam]

/-- Claim C7 witness: a concrete spam submission. -/
theorem contact_honeypot_witness :
    contactHandler [("website", "http://spam")] true = (200, 0) :=
  contact_honeypot_accepted_and_discarded [("website", "http://spam")] true
    "http://spam" (by decide) (by decide)

/-- Claim C8 counterexample: the legacy fetchCarsAndRender in vehicle.js has
no sequence guard.  With fetches A then B outstanding, B resolving first with
inventory [2] and A resolving second with stale inventory [1], the rendered
state ends at the stale data of A, not at B. -/
theorem legacy_fetch_stale_overwrite :
    (resolveFetchLegacy (resolveFetchLegacy ⟨2, none⟩ [2]) [1]).rendered = some [1] ∧
    ([1] : List Nat) ≠ [2] := by decide

/-- Claim C8 (amended): the admin client in cloudinary.js tags each fetch
with a strictly increasing sequence number and applies a response only when
its tag is still the latest; in the A-then-B race with B resolving first and
A second, the rendered state reflects B.  The legacy vehicle.js copy has no
such guard (see the counterexample). -/
theorem guarded_fetch_newest_wins (st0 : FetchState) (dataA dataB : List Nat) :
    (issueFetch st0).2 < (issueFetch (issueFetch st0).1).2 ∧
    (resolveFetchGuarded
        (resolveFetchGuarded (issueFetch (issueFetch st0).1).1
          (issueFetch (issueFetch st0).1).2 dataB)
        (issueFetch st0).2 dataA).rendered = some dataB := by
  refine ⟨by simp [issueFetch], ?_⟩
  simp [issueFetch, resolveFetchGuarded]

/-- Claim C2 counterexample: a create call whose body carries the field
"bogus", outside the allow-list, passes validation unchanged (the field is
silently filtered out before the strict schema runs) and the handler writes
a row and answers 201 instead of rejecting the call. -/
theorem create_unknown_field_not_rejected :
    validateVehicleFields 2025 [("make", "Honda"), ("bogus", "x")]
      = validateVehicleFields 2025 [("make", "Honda")] ∧
    createVehicle (fun _ => none) 2025 [("make", "Honda"), ("bogus", "x")] [] true
      = [.dbInsert [], .respond 201] := ⟨rfl, by decide⟩

theorem filterMap_congr_mem (l : List α) (f g : α → Option β)
    (h : ∀ a ∈ l, f a = g a) : l.filterMap f = l.filterMap g := by
  induction l with
  | nil => rfl
  | cons x xs ih =>
    simp only [List.filterMap_cons]
    rw [h x (List.mem_cons_self x xs), ih (fun a ha => h a (List.mem_cons_of_mem x ha))]

theorem lookupField_append_allowed (body extras : List (String × String)) (k : String)
    (hk : k ∈ ALLOWED_VEHICLE_FIELDS)
    (hx : ∀ kv ∈ extras, kv.1 ∉ ALLOWED_VEHICLE_FIELDS) :
    lookupField (body ++ extras) k = lookupField body k := by
  unfold lookupField
  rw [List.find?_append]
  have hnone : extras.find? (fun kv => kv.1 == k) = none := by
    rw [List.find?_eq_none]
    intro kv hkv
    simp only [beq_iff_eq]
    intro he
    exact hx kv hkv (he ▸ hk)
  rw [hnone]
  cases body.find? (fun kv => kv.1 == k) <;> rfl

theorem filterAllowed_append (body extras : List (String × String))
    (hx : ∀ kv ∈ extras, kv.1 ∉ ALLOWED_VEHICLE_FIELDS) :
    filterAllowed (body ++ extras) = filterAllowed body := by
  unfold filterAllowed
  apply filterMap_congr_mem
  intro k hk
  rw [lookupField_append_allowed body extras k hk hx]

theorem validateVehicleFields_append (currentYear : Int)
    (body extras : List (String × String))
    (hx : ∀ kv ∈ extras, kv.1 ∉ ALLOWED_VEHICLE_FIELDS) :
    validateVehicleFields currentYear (body ++ extras)
      = validateVehicleFields currentYear body := by
  unfold validateVehicleFields
  rw [filterAllowed_append body extras hx]

/-- Claim C2 (amended): fields outside the allow-list are silently dropped
by the filtering step before the strict schema ever sees them: a create or
update call with unknown extra fields validates, behaves and takes effect
exactly as the same call without them, and is not rejected on their
account. -/
theorem unknown_fields_silently_dropped (parseJson : String → Option JsVal)
    (currentYear : Int) (body extras : List (String × String))
    (files : List FileOutcome) (dbOk : Bool) (parsedExisting : Option JsVal)
    (hx : ∀ kv ∈ extras, kv.1 ∉ ALLOWED_VEHICLE_FIELDS) :
    validateVehicleFields currentYear (body ++ extras)
      = validateVehicleFields currentYear body ∧
    createVehicle parseJson currentYear (body ++ extras) files dbOk
      = createVehicle parseJson currentYear body files dbOk ∧
    updateVehicle parseJson currentYear (body ++ extras) parsedExisting files dbOk
      = updateVehicle parseJson currentYear body parsedExisting files dbOk := by
  have hv := validateVehicleFields_append currentYear body extras hx
  have hu : lookupField (body ++ extras) "image_url" = lookupField body "image_url" :=
    lookupField_append_allowed body extras "image_url" (by decide) hx
  refine ⟨hv, ?_, ?_⟩
  · unfold createVehicle; rw [hv, hu]
  · unfold updateVehicle; rw [hv, hu]

/-- Claim C2 witness: dropping the unknown field changes nothing about a
concrete create call. -/
theorem unknown_fields_dropped_witness :
    createVehicle (fun _ => none) 2025 ([("make", "Honda")] ++ [("bogus", "x")]) [] true
      = createVehicle (fun _ => none) 2025 [("make", "Honda")] [] true := by
  have h := unknown_fields_silently_dropped (fun _ => none) 2025 [("make", "Honda")]
    [("bogus", "x")] [] true none
    (by intro kv hkv; rw [List.mem_singleton] at hkv; subst hkv; decide)
  exact h.2.1

/-- Claim C10 counterexample: normalization of an object item propagates its
url field verbatim, untrimmed, so the result is not a list of trimmed
strings, and re-applying normalization to that result trims the value and
yields a different list, refuting idempotence. -/
theorem normalizeImageArray_not_idempotent :
    normalizeImageArray (fun _ => none) (.arr [.obj [("url", .str " x ")]]) = [.str " x "] ∧
    normalizeImageArray (fun _ => none)
        (.arr (normalizeImageArray (fun _ => none) (.arr [.obj [("url", .str " x ")]])))
      = [.str "x"] ∧
    (JsVal.str " x ") ≠ (JsVal.str "x") := by decide

theorem normalize_id_of_trimmed (l : List JsVal)
    (h : ∀ v ∈ l, ∃ s, v = .str s ∧ jsTrim s = s ∧ s ≠ "") :
    (l.map imageItemToUrl).filter truthy = l := by
  induction l with
  | nil => rfl
  | cons x xs ih =>
    obtain ⟨s, hx, hts, hne⟩ := h x (List.mem_cons_self x xs)
    subst hx
    have h1 : imageItemToUrl (.str s) = .str s := by
      show (if (jsTrim s != "") = true then JsVal.str (jsTrim s) else JsVal.str "") = .str s
      rw [hts]
      simp [hne]
    have h2 : truthy (.str s) = true := by simp [truthy, hne]
    simp only [List.map_cons, List.filter_cons, h1, h2, if_pos]
    rw [ih (fun v hv => h v (List.mem_cons_of_mem _ hv))]

/-- Claim C10 (amended): normalization always yields a flat list of truthy
values, and it is idempotent on every input whose normalization consists of
trimmed nonempty strings (which holds whenever the raw items are strings or
objects whose url field is a trimmed nonempty string): re-normalizing the
produced list, directly or through any string that the store serialization
parses back to that list, returns it unchanged.  Object items with an
untrimmed or non-string url field are propagated verbatim and are the only
source of non-idempotence (see the counterexample). -/
theorem normalizeImageArray_trimmed_idempotent
    (pf pf2 : String → Option JsVal) (input : JsVal) (j : String)
    (h : ∀ v ∈ normalizeImageArray pf input, ∃ s, v = .str s ∧ jsTrim s = s ∧ s ≠ "")
    (hj : pf2 j = some (.arr (normalizeImageArray pf input))) :
    (normalizeImageArray pf input).all truthy = true ∧
    normalizeImageArray pf2 (.arr (normalizeImageArray pf input))
      = normalizeImageArray pf input ∧
    normalizeImageArray pf2 (.str j) = normalizeImageArray pf input := by
  refine ⟨?_, ?_, ?_⟩
  · apply List.all_eq_true.mpr
    intro v hv
    unfold normalizeImageArray at hv
    exact (List.mem_filter.mp hv).2
  · show ((normCandidates pf2 (.arr (normalizeImageArray pf input))).map
        imageItemToUrl).filter truthy = normalizeImageArray pf input
    rw [show normCandidates pf2 (.arr (normalizeImageArray pf input))
        = normalizeImageArray pf input from rfl]
    exact normalize_id_of_trimmed _ h
  · show ((normCandidates pf2 (.str j)).map imageItemToUrl).filter truthy
      = normalizeImageArray pf input
    rw [show normCandidates pf2 (.str j)
        = match pf2 j with
          | some (.arr xs) => xs
          | some (.obj f) => [.obj f]
          | some (.str t) => [.str t]
          | some _ => []
          | none => if jsTrim j != "" then [.str (jsTrim j)] else [] from rfl]
    rw [hj]
    exact normalize_id_of_trimmed _ h

/-- Claim C10 witness: normalizing the serialized form of a normalized list
returns the list. -/
theorem normalizeImageArray_idempotent_witness :
    normalizeImageArray (fun s => if s = "[\"a\"]" then some (.arr [.str "a"]) else none)
        (.str "[\"a\"]")
      = normalizeImageArray (fun _ => none) (.arr [.str "a"]) := by
  have h := normalizeImageArray_trimmed_idempotent (fun _ => none)
    (fun s => if s = "[\"a\"]" then some (.arr [.str "a"]) else none)
    (.arr [.str "a"]) "[\"a\"]"
    (by
      intro v hv
      rw [show normalizeImageArray (fun _ => none) (.arr [.str "a"]) = [.str "a"]
          from by decide] at hv
      rw [List.mem_singleton] at hv
      subst hv
      exact ⟨"a", rfl, by decide, by decide⟩)
    (by decide)
  exact h.2.2

/-- Claim C5 counterexample: an externally supplied url that happens to be a
Cloudinary delivery url is stored with a null deletion handle, yet on vehicle
delete the public id is re-derived from the url and the image is targeted by
a remote deletion. -/
theorem external_cloudinary_url_targeted :
    (buildImagesArray (fun _ => none) []
        (some "https://res.cloudinary.com/demo/image/upload/v1/shared/pic.jpg") [])
      = [{ url := .str "https://res.cloudinary.com/demo/image/upload/v1/shared/pic.jpg",
           publicId := .null }] ∧
    Ev.remoteDelete (.str "shared/pic")
      ∈ deleteVehicle (some (imagesToJson (buildImagesArray (fun _ => none) []
          (some "https://res.cloudinary.com/demo/image/upload/v1/shared/pic.jpg") []))) true := by
  decide

theorem imagePidValue_null (r : ImageRef) (hpid : r.publicId = .null)
    (t : String) (hurl : r.url = .str t) (hinc : jsIncludes t "cloudinary.com" = false) :
    imagePidValue r = some .null := by
  unfold imagePidValue extractPublicIdDyn extractPublicIdFromUrl
  rw [hpid, hurl]
  simp [truthy, hinc, jsOfOption]

theorem jsMapThrow_all_null (imgs : List ImageRef)
    (h : ∀ r ∈ imgs, imagePidValue r = some .null) :
    jsMapThrow imagePidValue imgs = some (imgs.map (fun _ => JsVal.null)) := by
  induction imgs with
  | nil => rfl
  | cons r rs ih =>
    unfold jsMapThrow
    rw [h r (List.mem_cons_self r rs), ih (fun x hx => h x (List.mem_cons_of_mem _ hx))]
    rfl

theorem getPublicIds_nil_of_external (imgs : List ImageRef)
    (h : ∀ r ∈ imgs, r.publicId = .null ∧
          ∃ t, r.url = .str t ∧ jsIncludes t "cloudinary.com" = false) :
    getPublicIdsFromImages imgs = some [] := by
  unfold getPublicIdsFromImages
  rw [jsMapThrow_all_null imgs (fun r hr => by
    obtain ⟨hpid, t, hurl, hinc⟩ := h r hr
    exact imagePidValue_null r hpid t hurl hinc)]
  simp only [Option.map_some']
  congr 1
  rw [List.filter_eq_nil_iff]
  intro v hv
  obtain ⟨r, _, he⟩ := List.mem_map.mp hv
  rw [← he]
  simp [truthy]

theorem normalizeDbItem_external (t : String) :
    normalizeDbItem (imageRefToJson { url := .str t, publicId := .null })
      = if t = "" then none else some { url := .str t, publicId := .null } := by
  by_cases ht : t = ""
  · subst ht; rw [if_pos rfl]; rfl
  · rw [if_neg ht]
    unfold normalizeDbItem imageRefToJson
    have hget : getProp (.obj [("url", JsVal.str t), ("publicId", JsVal.null)]) "url"
        = some (.str t) := by rfl
    have hget2 : getProp (.obj [("url", JsVal.str t), ("publicId", JsVal.null)]) "publicId"
        = some .null := by rfl
    rw [hget, hget2]
    simp [truthy, isObjType, truthyOpt, jsOrDefault, ht]

theorem renormalize_external (imgs : List ImageRef)
    (h : ∀ r ∈ imgs, r.publicId = .null ∧
          ∃ t, r.url = .str t ∧ jsIncludes t "cloudinary.com" = false) :
    ∀ r' ∈ normalizeImagesFromDb (some (imagesToJson imgs)),
      r'.publicId = .null ∧ ∃ t, r'.url = .str t ∧ jsIncludes t "cloudinary.com" = false := by
  intro r' hr'
  unfold normalizeImagesFromDb imagesToJson at hr'
  obtain ⟨v, hv, heq⟩ := List.mem_filterMap.mp hr'
  obtain ⟨r, hr, hev⟩ := List.mem_map.mp hv
  obtain ⟨hpid, t, hurl, hinc⟩ := h r hr
  have hrform : r = { url := .str t, publicId := .null } := by
    cases r; simp_all
  rw [← hev, hrform, normalizeDbItem_external t] at heq
  by_cases ht : t = ""
  · rw [if_pos ht] at heq; cases heq
  · rw [if_neg ht] at heq
    cases heq
    exact ⟨rfl, t, rfl, hinc⟩

theorem buildImageUrlItems_parsed_str (t raw : String) :
    buildImageUrlItems (some (.str t)) raw
      = if jsTrim t != "" then [{ url := .str (jsTrim t), publicId := .null }] else [] := rfl

theorem buildImageUrlItems_parse_failed (raw : String) :
    buildImageUrlItems none raw
      = if jsTrim raw != "" then [{ url := .str (jsTrim raw), publicId := .null }] else [] := rfl

theorem buildImageUrlItems_parsed_arr (xs : List JsVal) (raw : String) :
    buildImageUrlItems (some (.arr xs)) raw = xs.filterMap buildUrlItem := rfl

theorem buildUrlItem_str (t : String) :
    buildUrlItem (.str t)
      = if jsTrim t != "" then some { url := .str (jsTrim t), publicId := .null }
        else none := rfl

theorem buildImagesArray_urlOnly (parseJson : String → Option JsVal) (s : String) :
    buildImagesArray parseJson [] (some s) []
      = if s != "" then buildImageUrlItems (parseJson s) s else [] := by
  unfold buildImagesArray
  simp

theorem buildImagesArray_external_shape (parseJson : String → Option JsVal) (s : String)
    (hshape : parseJson s = none ∨ (∃ t, parseJson s = some (.str t)) ∨
        (∃ xs, parseJson s = some (.arr xs) ∧ ∀ x ∈ xs, ∃ t, x = JsVal.str t)) :
    ∀ r ∈ buildImagesArray parseJson [] (some s) [],
      r.publicId = .null ∧ ∃ t, r.url = .str t := by
  intro r hr
  rw [buildImagesArray_urlOnly] at hr
  by_cases hs : s = ""
  · simp [hs] at hr
  · rw [if_pos (by simp [hs])] at hr
    rcases hshape with hp | ⟨t, hp⟩ | ⟨xs, hp, hall⟩
    · rw [hp, buildImageUrlItems_parse_failed] at hr
      by_cases htr : jsTrim s = ""
      · rw [if_neg (by simp [htr])] at hr; simp at hr
      · rw [if_pos (by simp [htr])] at hr
        rw [List.mem_singleton] at hr
        subst hr
        exact ⟨rfl, jsTrim s, rfl⟩
    · rw [hp, buildImageUrlItems_parsed_str] at hr
      by_cases htr : jsTrim t = ""
      · rw [if_neg (by simp [htr])] at hr; simp at hr
      · rw [if_pos (by simp [htr])] at hr
        rw [List.mem_singleton] at hr
        subst hr
        exact ⟨rfl, jsTrim t, rfl⟩
    · rw [hp, buildImageUrlItems_parsed_arr] at hr
      obtain ⟨x, hx, hex⟩ := List.mem_filterMap.mp hr
      obtain ⟨t, hxt⟩ := hall x hx
      subst hxt
      rw [buildUrlItem_str] at hex
      by_cases htr : jsTrim t = ""
      · rw [if_neg (by simp [htr])] at hex; cases hex
      · rw [if_pos (by simp [htr])] at hex
        cases hex
        exact ⟨rfl, jsTrim t, rfl⟩

/-- Claim C5 (amended): an image reference created from an externally
supplied url carries no deletion handle, and it is never the target of a
remote deletion as long as its url is not a Cloudinary url: for such
references the public-id derivation yields nothing, so vehicle delete (and
likewise the update-replace diff, which only deletes derived public ids)
issues no remote deletion for them.  When the external url is itself a
Cloudinary delivery url, the handler re-derives a public id from it and does
target it (see the counterexample). -/
theorem external_urls_never_deleted (parseJson : String → Option JsVal) (s : String)
    (hshape : parseJson s = none ∨ (∃ t, parseJson s = some (.str t)) ∨
        (∃ xs, parseJson s = some (.arr xs) ∧ ∀ x ∈ xs, ∃ t, x = .str t))
    (hnc : ∀ r ∈ buildImagesArray parseJson [] (some s) [], ∀ t, r.url = .str t →
        jsIncludes t "cloudinary.com" = false) :
    (∀ r ∈ buildImagesArray parseJson [] (some s) [], r.publicId = .null) ∧
    getPublicIdsFromImages (buildImagesArray parseJson [] (some s) []) = some [] ∧
    ∀ (dbOk : Bool) (p : JsVal), Ev.remoteDelete p ∉
        deleteVehicle (some (imagesToJson (buildImagesArray parseJson [] (some s) []))) dbOk := by
  have hshp := buildImagesArray_external_shape parseJson s hshape
  have hfull : ∀ r ∈ buildImagesArray parseJson [] (some s) [],
      r.publicId = .null ∧ ∃ t, r.url = .str t ∧ jsIncludes t "cloudinary.com" = false := by
    intro r hr
    obtain ⟨hpid, t, hurl⟩ := hshp r hr
    exact ⟨hpid, t, hurl, hnc r hr t hurl⟩
  refine ⟨fun r hr => (hfull r hr).1, getPublicIds_nil_of_external _ hfull, ?_⟩
  intro dbOk p
  unfold deleteVehicle
  by_cases hdb : dbOk
  · rw [if_neg (by simp [hdb])]
    rw [getPublicIds_nil_of_external _ (renormalize_external _ hfull)]
    simp
  · rw [if_pos (by simp [hdb])]
    simp

/-- Claim C5 witness: a plain external url is stored without a handle and
never targeted for deletion. -/
theorem external_urls_never_deleted_witness :
    getPublicIdsFromImages
        (buildImagesArray (fun _ => none) [] (some "https://example.com/a.jpg") [])
      = some [] := by
  have h := external_urls_never_deleted (fun _ => none) "https://example.com/a.jpg"
    (Or.inl rfl)
    (by
      intro r hr t ht
      rw [show buildImagesArray (fun _ => none) [] (some "https://example.com/a.jpg") []
          = [{ url := .str "https://example.com/a.jpg", publicId := .null }] from by decide] at hr
      rw [List.mem_singleton] at hr
      subst hr
      cases ht
      decide)
  exact h.2.1

theorem matchCaptureExt_ne_nil {t cap : List Char} (h : matchCaptureExt t = some cap) :
    cap ≠ [] := by
  simp only [matchCaptureExt] at h
  split at h
  · cases h
  · split at h
    · cases h
    · rename_i hcond
      cases h
      intro hnil
      rw [hnil] at hcond
      exact hcond (by simp)

theorem matchAfterUpload_ne_nil {t cap : List Char} (h : matchAfterUpload t = some cap) :
    cap ≠ [] := by
  unfold matchAfterUpload at h
  split at h
  · rename_i t' hstrip
    split at h
    · rename_i hce
      cases h
      exact matchCaptureExt_ne_nil hce
    · exact matchCaptureExt_ne_nil h
  · exact matchCaptureExt_ne_nil h

theorem findUploadMatch_ne_nil {ts : List (List Char)} {cap : List Char}
    (h : findUploadMatch ts = some cap) : cap ≠ [] := by
  induction ts with
  | nil => cases h
  | cons t ts ih =>
    unfold findUploadMatch at h
    split at h
    · rename_i hm
      cases h
      exact matchAfterUpload_ne_nil hm
    · exact ih h

theorem extractPublicIdFromUrl_ne_empty {s c : String}
    (h : extractPublicIdFromUrl s = some c) : c ≠ "" := by
  unfold extractPublicIdFromUrl at h
  split at h
  · obtain ⟨cs, hcs, he⟩ := Option.map_eq_some'.mp h
    intro hc
    apply findUploadMatch_ne_nil hcs
    rw [← he] at hc
    exact congrArg String.data hc
  · cases h

theorem jsOrDefault_null_or_truthy (a : Option JsVal) :
    jsOrDefault a .null = .null ∨ truthy (jsOrDefault a .null) = true := by
  cases a with
  | none => exact Or.inl rfl
  | some v =>
    show (if truthy v = true then v else JsVal.null) = .null ∨
      truthy (if truthy v = true then v else JsVal.null) = true
    by_cases hv : truthy v = true
    · rw [if_pos hv]; exact Or.inr hv
    · rw [if_neg hv]; exact Or.inl rfl

theorem jsOrDefault_of_null_or_truthy (p : JsVal) (hp : p = .null ∨ truthy p = true) :
    jsOrDefault (some p) .null = p := by
  show (if truthy p = true then p else JsVal.null) = p
  rcases hp with h | h
  · subst h; rfl
  · rw [if_pos h]

theorem normalizeDbItem_pid {item : JsVal} {r : ImageRef}
    (h : normalizeDbItem item = some r) :
    r.publicId = .null ∨ truthy r.publicId = true := by
  unfold normalizeDbItem at h
  split at h
  · cases h
    exact jsOrDefault_null_or_truthy _
  · split at h
    · rename_i s hnc
      cases h
      show jsOfOption (extractPublicIdFromUrl s) = .null ∨
        truthy (jsOfOption (extractPublicIdFromUrl s)) = true
      cases hc : extractPublicIdFromUrl s with
      | none => exact Or.inl rfl
      | some c =>
        refine Or.inr ?_
        have := extractPublicIdFromUrl_ne_empty hc
        simp [jsOfOption, truthy, this]
    · cases h

theorem normalizeImagesFromDb_pid (parsed : Option JsVal) :
    ∀ r ∈ normalizeImagesFromDb parsed, r.publicId = .null ∨ truthy r.publicId = true := by
  intro r hr
  unfold normalizeImagesFromDb at hr
  split at hr
  · obtain ⟨item, _, hitem⟩ := List.mem_filterMap.mp hr
    exact normalizeDbItem_pid hitem
  · simp at hr

theorem normalizeDbItem_roundtrip (r : ImageRef) (hu : truthy r.url = true)
    (hp : r.publicId = .null ∨ truthy r.publicId = true) :
    normalizeDbItem (imageRefToJson r) = some r := by
  have hget : getProp (imageRefToJson r) "url" = some r.url := rfl
  have hget2 : getProp (imageRefToJson r) "publicId" = some r.publicId := rfl
  have hcond : (truthy (imageRefToJson r) && isObjType (imageRefToJson r) &&
      truthyOpt (getProp (imageRefToJson r) "url")) = true := by
    rw [hget]
    show (true && true && truthy r.url) = true
    rw [hu]
    rfl
  unfold normalizeDbItem
  rw [if_pos hcond, hget, hget2]
  rw [jsOrDefault_of_null_or_truthy _ hp]
  rfl

theorem normalizeImagesFromDb_roundtrip (l : List ImageRef)
    (h : ∀ r ∈ l, truthy r.url = true ∧ (r.publicId = .null ∨ truthy r.publicId = true)) :
    normalizeImagesFromDb (some (imagesToJson l)) = l := by
  show (l.map imageRefToJson).filterMap normalizeDbItem = l
  induction l with
  | nil => rfl
  | cons r rs ih =>
    obtain ⟨hu, hp⟩ := h r (List.mem_cons_self r rs)
    simp only [List.map_cons, List.filterMap_cons, normalizeDbItem_roundtrip r hu hp]
    rw [ih (fun x hx => h x (List.mem_cons_of_mem _ hx))]

theorem buildImagesArray_no_new (parseJson : String → Option JsVal) (ex : List ImageRef) :
    buildImagesArray parseJson [] none ex = ex := by
  unfold buildImagesArray
  cases ex <;> simp

theorem filter_not_contains_self (l : List JsVal) :
    l.filter (fun p => !(l.contains p)) = [] := by
  rw [List.filter_eq_nil_iff]
  intro p hp
  simp [hp]

/-- Claim C3: an update that supplies no new images (no uploaded files, no
image_url field) writes back exactly the image list read from the row, in
order, and that written list re-reads as itself, so the stored image list is
preserved element for element.  The hypotheses restrict to the success path
of the handler (validation passes, the write succeeds, the public-id
derivation does not throw) and to stored lists whose entries have truthy
urls (every list this code writes satisfies that). -/
theorem update_no_new_images_preserves_list
    (parseJson : String → Option JsVal) (currentYear : Int)
    (body : List (String × String)) (parsedExisting : Option JsVal)
    (d : VehicleData) (oldPids : List JsVal)
    (hval : validateVehicleFields currentYear body = .ok d)
    (hnoUrl : lookupField body "image_url" = none)
    (hpids : getPublicIdsFromImages (normalizeImagesFromDb parsedExisting) = some oldPids)
    (hurls : ∀ r ∈ normalizeImagesFromDb parsedExisting, truthy r.url = true) :
    updateVehicle parseJson currentYear body parsedExisting [] true
      = [.dbWrite (normalizeImagesFromDb parsedExisting), .respond 200] ∧
    normalizeImagesFromDb (some (imagesToJson (normalizeImagesFromDb parsedExisting)))
      = normalizeImagesFromDb parsedExisting := by
  constructor
  · unfold updateVehicle
    rw [hval]
    rw [show uploadFilesToCloudinary [] = (([] : List Ev), some ([] : List ImageRef)) from rfl]
    simp only [hnoUrl, buildImagesArray_no_new, hpids]
    rw [filter_not_contains_self]
    simp
  · apply normalizeImagesFromDb_roundtrip
    intro r hr
    exact ⟨hurls r hr, normalizeImagesFromDb_pid parsedExisting r hr⟩

/-- Claim C3 witness: a concrete no-image update preserves a concrete stored
list. -/
theorem update_no_new_images_witness :
    updateVehicle (fun _ => none) 2025 []
        (some (.arr [.obj [("url", .str "https://x.example/a.jpg"), ("publicId", .null)]]))
        [] true
      = [.dbWrite [{ url := .str "https://x.example/a.jpg", publicId := .null }],
         .respond 200] := by
  have h := update_no_new_images_preserves_list (fun _ => none) 2025 []
    (some (.arr [.obj [("url", .str "https://x.example/a.jpg"), ("publicId", .null)]]))
    { year := none, make := "", model := "", trimName := "", price := none,
      mileage := none, exterior_color := "", interior_color := "", fuel_type := "",
      transmission := "", engine := "", drivetrain := "", description := "",
      status := "available", image_url := "" }
    [] rfl rfl (by decide)
    (by
      intro r hr
      rw [show normalizeImagesFromDb
          (some (.arr [.obj [("url", .str "https://x.example/a.jpg"), ("publicId", .null)]]))
          = [{ url := .str "https://x.example/a.jpg", publicId := .null }] from by decide] at hr
      rw [List.mem_singleton] at hr
      subst hr
      decide)
  rw [h.1]
  rw [show normalizeImagesFromDb
      (some (.arr [.obj [("url", .str "https://x.example/a.jpg"), ("publicId", .null)]]))
      = [{ url := .str "https://x.example/a.jpg", publicId := .null }] from by decide]

/-- Upload events of an all-successful run of files. -/
def okEvs (files : List FileOutcome) : List Ev :=
  files.filterMap (fun f => match f with | .ok _ p => some (Ev.uploadOk p) | .fail => none)

/-- Image references accumulated for an all-successful run of files. -/
def okRefs (files : List FileOutcome) : List ImageRef :=
  files.filterMap (fun f =>
    match f with
    | .ok u p => some { url := JsVal.str u, publicId := JsVal.str p }
    | .fail => none)

theorem okEvs_shape {files : List FileOutcome} :
    ∀ e ∈ okEvs files, ∃ p, e = Ev.uploadOk p := by
  intro e he
  obtain ⟨f, _, hf⟩ := List.mem_filterMap.mp he
  cases f with
  | ok u p =>
    cases hf
    exact ⟨p, rfl⟩
  | fail => cases hf

theorem uploadLoop_ok (files : List FileOutcome) (hok : files.all FileOutcome.isOk = true) :
    ∀ acc, uploadLoop files acc = (okEvs files, some (acc ++ okRefs files)) := by
  induction files with
  | nil => intro acc; simp [uploadLoop, okEvs, okRefs]
  | cons f fs ih =>
    intro acc
    cases f with
    | fail => simp [List.all_cons, FileOutcome.isOk] at hok
    | ok u p =>
      have hfs : fs.all FileOutcome.isOk = true := by
        rw [List.all_cons] at hok
        exact (Bool.and_eq_true_iff.mp hok).2
      unfold uploadLoop
      show (Ev.uploadOk p ::
          (uploadLoop fs (acc ++ [{ url := JsVal.str u, publicId := JsVal.str p }])).1,
        (uploadLoop fs (acc ++ [{ url := JsVal.str u, publicId := JsVal.str p }])).2) = _
      rw [ih hfs]
      simp [okEvs, okRefs, List.filterMap_cons, List.append_assoc]

theorem uploadLoop_fail (okPre rest : List FileOutcome)
    (hok : okPre.all FileOutcome.isOk = true) :
    ∀ acc, uploadLoop (okPre ++ .fail :: rest) acc =
      (okEvs okPre ++ .uploadFail ::
        (((acc ++ okRefs okPre).map (fun i => i.publicId)).filter truthy).map
          (fun p => Ev.remoteDelete p),
       none) := by
  induction okPre with
  | nil =>
    intro acc
    simp only [List.nil_append]
    unfold uploadLoop
    simp [okEvs, okRefs]
  | cons f fs ih =>
    intro acc
    cases f with
    | fail => simp [List.all_cons, FileOutcome.isOk] at hok
    | ok u p =>
      have hfs : fs.all FileOutcome.isOk = true := by
        rw [List.all_cons] at hok
        exact (Bool.and_eq_true_iff.mp hok).2
      show uploadLoop (.ok u p :: (fs ++ .fail :: rest)) acc = _
      unfold uploadLoop
      show (Ev.uploadOk p ::
          (uploadLoop (fs ++ .fail :: rest)
            (acc ++ [{ url := JsVal.str u, publicId := JsVal.str p }])).1,
        (uploadLoop (fs ++ .fail :: rest)
          (acc ++ [{ url := JsVal.str u, publicId := JsVal.str p }])).2) = _
      rw [ih hfs]
      simp [okEvs, okRefs, List.filterMap_cons, List.append_assoc]

theorem mem_okRefs_pid {files : List FileOutcome} {u p : String}
    (h : FileOutcome.ok u p ∈ files) :
    JsVal.str p ∈ (okRefs files).map (fun i => i.publicId) := by
  rw [List.mem_map]
  refine ⟨{ url := JsVal.str u, publicId := JsVal.str p }, ?_, rfl⟩
  rw [okRefs, List.mem_filterMap]
  exact ⟨.ok u p, h, rfl⟩

theorem mem_okPids {files : List FileOutcome} {u p : String}
    (h : FileOutcome.ok u p ∈ files) : p ∈ okPids files := by
  rw [okPids, List.mem_filterMap]
  exact ⟨.ok u p, h, rfl⟩

/-- Claim C1: in a create call whose upload batch fails at some file, after
an all-successful prefix, every image of that prefix (all of which carry the
nonempty public ids Cloudinary returns) has its remote deletion invoked
before the error response is sent, no database row is inserted, and the call
answers 500. -/
theorem create_upload_failure_rolls_back
    (parseJson : String → Option JsVal) (currentYear : Int)
    (body : List (String × String)) (d : VehicleData)
    (okPre rest : List FileOutcome) (dbOk : Bool)
    (hval : validateVehicleFields currentYear body = .ok d)
    (hok : okPre.all FileOutcome.isOk = true)
    (hpid : (okPids okPre).all (fun p => p != "") = true) :
    (∀ u p, FileOutcome.ok u p ∈ okPre →
        Ev.remoteDelete (.str p) ∈
          (createVehicle parseJson currentYear body (okPre ++ .fail :: rest) dbOk).takeWhile
            (fun e => !e.isRespond)) ∧
    (∀ imgs, Ev.dbInsert imgs ∉
        createVehicle parseJson currentYear body (okPre ++ .fail :: rest) dbOk) ∧
    (createVehicle parseJson currentYear body (okPre ++ .fail :: rest) dbOk).getLast?
      = some (.respond 500) := by
  have hevs : createVehicle parseJson currentYear body (okPre ++ .fail :: rest) dbOk
      = (okEvs okPre ++ .uploadFail ::
          (((okRefs okPre).map (fun i => i.publicId)).filter truthy).map
            (fun p => Ev.remoteDelete p)) ++ [.respond 500] := by
    unfold createVehicle uploadFilesToCloudinary
    rw [hval, uploadLoop_fail okPre rest hok []]
    simp
  have hbody : ∀ e ∈ okEvs okPre ++ .uploadFail ::
      (((okRefs okPre).map (fun i => i.publicId)).filter truthy).map
        (fun p => Ev.remoteDelete p), (!e.isRespond) = true := by
    intro e he
    rcases List.mem_append.mp he with h1 | h2
    · obtain ⟨q, hq⟩ := okEvs_shape e h1
      subst hq; rfl
    · rcases List.mem_cons.mp h2 with h3 | h4
      · subst h3; rfl
      · obtain ⟨q, _, hq⟩ := List.mem_map.mp h4
        subst hq; rfl
  refine ⟨?_, ?_, ?_⟩
  · intro u p hmem
    rw [hevs, List.takeWhile_append_of_pos hbody]
    have hptruthy : truthy (JsVal.str p) = true := by
      have hne := List.all_eq_true.mp hpid p (mem_okPids hmem)
      simpa [truthy] using hne
    have hpidmem : JsVal.str p ∈
        ((okRefs okPre).map (fun i => i.publicId)).filter truthy :=
      List.mem_filter.mpr ⟨mem_okRefs_pid hmem, hptruthy⟩
    have hdel : Ev.remoteDelete (.str p) ∈
        (((okRefs okPre).map (fun i => i.publicId)).filter truthy).map
          (fun p => Ev.remoteDelete p) :=
      List.mem_map.mpr ⟨JsVal.str p, hpidmem, rfl⟩
    refine List.mem_append.mpr (Or.inl (List.mem_append.mpr (Or.inr ?_)))
    exact List.mem_cons_of_mem _ hdel
  · intro imgs hmem
    rw [hevs] at hmem
    rcases List.mem_append.mp hmem with h1 | h2
    · rcases List.mem_append.mp h1 with h3 | h4
      · obtain ⟨q, hq⟩ := okEvs_shape _ h3
        cases hq
      · rcases List.mem_cons.mp h4 with h5 | h6
        · cases h5
        · obtain ⟨q, _, hq⟩ := List.mem_map.mp h6
          cases hq
    · rcases List.mem_cons.mp h2 with h5 | h6
      · cases h5
      · cases h6
  · rw [hevs]
    exact List.getLast?_concat _

/-- Claim C1 witness: with two files whose second upload fails, the one
successful upload is deleted before the 500 response and no row is
inserted. -/
theorem create_upload_failure_witness :
    (Ev.remoteDelete (.str "p1")
      ∈ (createVehicle (fun _ => none) 2025 [] [.ok "u1" "p1", .fail] true).takeWhile
          (fun e => !e.isRespond)) ∧
    (∀ imgs, Ev.dbInsert imgs
      ∉ createVehicle (fun _ => none) 2025 [] [.ok "u1" "p1", .fail] true) := by
  have h := create_upload_failure_rolls_back (fun _ => none) 2025 []
    { year := none, make := "", model := "", trimName := "", price := none,
      mileage := none, exterior_color := "", interior_color := "", fuel_type := "",
      transmission := "", engine := "", drivetrain := "", description := "",
      status := "available", image_url := "" }
    [.ok "u1" "p1"] [] true rfl (by decide) (by decide)
  exact ⟨h.1 "u1" "p1" (by decide), h.2.1⟩

/-- Claim C4 counterexample: a stored list holding the same Cloudinary url
twice yields the same deletion handle twice; replacing the images then passes
that handle to the remote Delete twice, not exactly once. -/
theorem update_duplicate_handle_deleted_twice :
    getPublicIdsFromImages (normalizeImagesFromDb (some (.arr
        [.str "https://res.cloudinary.com/demo/image/upload/v1/bs-auto-sales/x.jpg",
         .str "https://res.cloudinary.com/demo/image/upload/v1/bs-auto-sales/x.jpg"])))
      = some [.str "bs-auto-sales/x", .str "bs-auto-sales/x"] ∧
    (updateVehicle (fun _ => none) 2025 []
        (some (.arr
          [.str "https://res.cloudinary.com/demo/image/upload/v1/bs-auto-sales/x.jpg",
           .str "https://res.cloudinary.com/demo/image/upload/v1/bs-auto-sales/x.jpg"]))
        [.ok "https://res.cloudinary.com/demo/image/upload/v1/bs-auto-sales/new.jpg"
          "bs-auto-sales/new"] true).count
      (.remoteDelete (.str "bs-auto-sales/x")) = 2 := by
  decide

theorem update_replace_events
    (parseJson : String → Option JsVal) (currentYear : Int)
    (body : List (String × String)) (parsedExisting : Option JsVal)
    (files : List FileOutcome) (dbOk : Bool) (d : VehicleData)
    (oldPids newPids : List JsVal)
    (hval : validateVehicleFields currentYear body = .ok d)
    (hfiles : files.all FileOutcome.isOk = true)
    (hold : getPublicIdsFromImages (normalizeImagesFromDb parsedExisting) = some oldPids)
    (hnew : getPublicIdsFromImages
        (buildImagesArray parseJson (okRefs files) (lookupField body "image_url")
          (normalizeImagesFromDb parsedExisting)) = some newPids) :
    updateVehicle parseJson currentYear body parsedExisting files dbOk
      = if dbOk then
          okEvs files ++ .dbWrite (buildImagesArray parseJson (okRefs files)
              (lookupField body "image_url") (normalizeImagesFromDb parsedExisting)) ::
            ((oldPids.filter (fun p => !(newPids.contains p))).map
              (fun p => Ev.remoteDelete p) ++ [.respond 200])
        else okEvs files ++ [.respond 500] := by
  unfold updateVehicle uploadFilesToCloudinary
  rw [hval, uploadLoop_ok files hfiles]
  simp only [List.nil_append]
  rw [hold, hnew]
  by_cases hdb : dbOk
  · simp [hdb]
  · simp [hdb]

/-- Claim C4 (amended): on the success path of an update that replaces the
image list, every deletion handle present in the old list and absent from
the new list is passed to the remote Delete once per occurrence in the old
list (so exactly once whenever the old list carries no duplicate handles;
a duplicated handle is deleted once per duplicate, see the counterexample),
no remote deletion is initiated before the database write, and none at all
when the write fails. -/
theorem update_replace_deletes_stale_handles
    (parseJson : String → Option JsVal) (currentYear : Int)
    (body : List (String × String)) (parsedExisting : Option JsVal)
    (files : List FileOutcome) (dbOk : Bool) (d : VehicleData)
    (oldPids newPids : List JsVal)
    (hval : validateVehicleFields currentYear body = .ok d)
    (hfiles : files.all FileOutcome.isOk = true)
    (hold : getPublicIdsFromImages (normalizeImagesFromDb parsedExisting) = some oldPids)
    (hnew : getPublicIdsFromImages
        (buildImagesArray parseJson (okRefs files) (lookupField body "image_url")
          (normalizeImagesFromDb parsedExisting)) = some newPids) :
    (∀ p, p ∈ oldPids → p ∉ newPids →
      (updateVehicle parseJson currentYear body parsedExisting files dbOk).count
          (.remoteDelete p)
        = if dbOk then oldPids.count p else 0) ∧
    ((updateVehicle parseJson currentYear body parsedExisting files dbOk).takeWhile
        (fun e => !e.isDbWrite)).all (fun e => !e.isRemoteDelete) = true := by
  have hevs := update_replace_events parseJson currentYear body parsedExisting files dbOk d
    oldPids newPids hval hfiles hold hnew
  have hshape : ∀ e ∈ okEvs files, ∃ q, e = Ev.uploadOk q := okEvs_shape
  constructor
  · intro p hpo hpn
    rw [hevs]
    have hcount0 : (okEvs files).count (Ev.remoteDelete p) = 0 := by
      rw [List.count_eq_zero]
      intro hmem
      obtain ⟨q, hq⟩ := hshape _ hmem
      cases hq
    by_cases hdb : dbOk
    · rw [if_pos hdb, if_pos hdb]
      rw [List.count_append, hcount0, List.count_cons]
      have hinj : Function.Injective (fun p => Ev.remoteDelete p) := by
        intro a b hab
        injection hab
      rw [List.count_append]
      rw [List.count_map_of_injective _ _ hinj]
      have hfil : List.count p (List.filter (fun q => !(newPids.contains q)) oldPids)
          = List.count p oldPids := List.count_filter (by simp [hpn])
      rw [hfil]
      rw [show List.count (Ev.remoteDelete p) [Ev.respond 200] = 0 from rfl]
      rw [show (Ev.dbWrite (buildImagesArray parseJson (okRefs files)
          (lookupField body "image_url") (normalizeImagesFromDb parsedExisting))
            == Ev.remoteDelete p) = false from rfl]
      simp
    · rw [if_neg hdb, if_neg hdb]
      rw [List.count_append, hcount0]
      simp
  · rw [hevs]
    have hallpred : ∀ e ∈ okEvs files, ((fun e => !e.isDbWrite) e) = true := by
      intro e he
      obtain ⟨q, hq⟩ := hshape _ he
      subst hq; rfl
    by_cases hdb : dbOk
    · rw [if_pos hdb]
      rw [List.takeWhile_append_of_pos hallpred]
      rw [show (Ev.dbWrite (buildImagesArray parseJson (okRefs files)
          (lookupField body "image_url") (normalizeImagesFromDb parsedExisting)) ::
            ((oldPids.filter (fun p => !(newPids.contains p))).map
              (fun p => Ev.remoteDelete p) ++ [.respond 200])).takeWhile
            (fun e => !e.isDbWrite) = [] from rfl]
      rw [List.append_nil, List.all_eq_true]
      intro e he
      obtain ⟨q, hq⟩ := hshape _ he
      subst hq; rfl
    · rw [if_neg hdb]
      rw [List.takeWhile_append_of_pos hallpred]
      rw [show ([Ev.respond 500]).takeWhile (fun e => !e.isDbWrite) = [.respond 500] from rfl]
      rw [List.all_eq_true]
      intro e he
      rcases List.mem_append.mp he with h1 | h2
      · obtain ⟨q, hq⟩ := hshape _ h1
        subst hq; rfl
      · rw [List.mem_singleton] at h2
        subst h2; rfl

/-- Claim C4 witness: replacing a single old image deletes its handle
exactly once, after the write. -/
theorem update_replace_delete_witness :
    (updateVehicle (fun _ => none) 2025 []
        (some (.arr [.obj [("url", .str "u"), ("publicId", .str "old1")]]))
        [.ok "nu" "np"] true).count (.remoteDelete (.str "old1")) = 1 := by
  have h := update_replace_deletes_stale_handles (fun _ => none) 2025 []
    (some (.arr [.obj [("url", .str "u"), ("publicId", .str "old1")]]))
    [.ok "nu" "np"] true
    { year := none, make := "", model := "", trimName := "", price := none,
      mileage := none, exterior_color := "", interior_color := "", fuel_type := "",
      transmission := "", engine := "", drivetrain := "", description := "",
      status := "available", image_url := "" }
    [.str "old1"] [.str "np"]
    rfl (by decide) (by decide) (by decide)
  have hc := h.1 (.str "old1") (by decide) (by decide)
  rw [hc]
  decide
